import Mathlib

/-!
Shallow embedding of the `rcrawler` web crawler (plugins/web-crawler), covering
the data model (`scripts/src/lib.rs`), the URL filter (`src/utils/filters.rs`),
the rate limiter (`src/crawler/rate_limiter.rs`), the crawl engine
(`src/crawler/engine.rs`) and the checkpoint store (`src/crawler/checkpoint.rs`).

Modelling conventions:
* Machine integers (`usize`, `u16`, `u64`) are `Nat`; timestamps (`DateTime<Utc>`,
  obtained from the ambient clock) are `Int` milliseconds passed in explicitly.
* External I/O (the HTTP client together with the HTML parser, the `url` crate's
  `Url::parse(..).domain()`, the robots checker's network lookups, the compiled
  `regex` engine) is abstracted as oracle functions supplied to the definitions;
  the control flow around those oracles is translated line by line from the source.
* The concurrent worker pool is embedded as a sequential small-step system: a
  `workerStep` is one worker dequeuing one job and running `process_job` to
  completion; seeding (`CrawlEngine::crawl`'s first phase) is the initial step.
  The `mpsc` channel is the `queue` field (FIFO list); `closed` records whether
  `tx.send` fails (channel closed).
* Fallible filesystem writes model `std::fs` errors: a path listed in `Fs.bad`
  makes the write return an error, as `create_dir_all`/`write` can.
-/

/-- Model of `CrawlStats` from `scripts/src/lib.rs` (counters plus timing). -/
structure CrawlStats where
  pages_found : Nat
  pages_crawled : Nat
  external_links : Nat
  excluded_links : Nat
  errors : Nat
  start_time : Int
  end_time : Option Int
  duration : Option Int
deriving Repr, DecidableEq

/-- Model of `CrawlStats::new` (all counters zero, `start_time` the clock). -/
def CrawlStats.new (now : Int) : CrawlStats :=
  { pages_found := 0, pages_crawled := 0, external_links := 0, excluded_links := 0
    errors := 0, start_time := now, end_time := none, duration := none }

/-- Model of `PageResult` from `scripts/src/lib.rs`. -/
structure PageResult where
  url : String
  title : String
  status_code : Nat
  depth : Nat
  links : List String
  error : Option String
  crawled_at : Int
  content_type : String
deriving Repr, DecidableEq

/-- Model of `CrawlJob` from `src/crawler/engine.rs`. -/
structure CrawlJob where
  url : String
  depth : Nat
deriving Repr, DecidableEq

/-- Model of `CrawlerConfig` from `scripts/src/lib.rs` (the fields the engine reads;
`rate_limit : f64` is modelled as a rational, `output_dir` as a path string). -/
structure CrawlerConfig where
  base_url : String
  allowed_domain : Option String
  max_depth : Nat
  max_workers : Nat
  rate_limit : ℚ
  output_dir : String
  use_sitemap : Bool
  max_sitemap_urls : Nat
  timeout : Nat
  respect_robots_txt : Bool
  exclude_patterns : List String
  include_patterns : List String

/-- Rust `str::ends_with` on strings. -/
def strEndsWith (s suf : String) : Bool :=
  suf.data.reverse.isPrefixOf s.data.reverse

/-! ## URL filter (`src/utils/filters.rs`)

A compiled `Regex` is abstracted as its matcher `String → Bool`; regex
compilation (`Regex::new`) is an oracle `compile : String → Option (String → Bool)`
(the `regex` crate is an external collaborator). -/

/-- Model of `UrlFilter` with compiled pattern lists. -/
structure UrlFilter where
  exclude_patterns : List (String → Bool)
  include_patterns : List (String → Bool)

/-- Model of `UrlFilter::new`: each pattern source is compiled with `Regex::new` and
sources that fail to compile are dropped (`filter_map (.. ).ok()`). -/
def UrlFilter.new (compile : String → Option (String → Bool))
    (excl incl : List String) : UrlFilter :=
  { exclude_patterns := excl.filterMap compile
    include_patterns := incl.filterMap compile }

/-- Model of `UrlFilter::should_crawl`. -/
def UrlFilter.should_crawl (f : UrlFilter) (url : String) : Bool :=
  if !f.include_patterns.isEmpty && !(f.include_patterns.any fun re => re url) then
    false
  else if f.exclude_patterns.any fun re => re url then
    false
  else
    true

/-! ## Rate limiter (`src/crawler/rate_limiter.rs`) -/

/-- Model of the `governor` quota the limiter is built from (`Quota::per_minute`). -/
structure RateLimiterQuota where
  requests_per_minute : Nat
deriving Repr, DecidableEq

/-- Rust `expr as u32` for a nonnegative float value, on rationals: truncate
toward zero and saturate at `u32::MAX` (negative values saturate to 0). -/
def ratAsU32 (q : ℚ) : Nat :=
  min (q.num.toNat / q.den) (2 ^ 32 - 1)

/-- Model of `RateLimiter::new`: `requests_per_minute = (requests_per_second * 60.0) as u32`,
then `NonZeroU32::new(requests_per_minute).unwrap()`. `none` is the `unwrap`
panic on `NonZeroU32::new(0)`. -/
def RateLimiter.new (requests_per_second : ℚ) : Option RateLimiterQuota :=
  let requests_per_minute : Nat := ratAsU32 (requests_per_second * 60)
  if requests_per_minute = 0 then none
  else some { requests_per_minute := requests_per_minute }

/-! ## Crawl engine (`src/crawler/engine.rs`) -/

/-- A successfully received and parsed HTTP response, as observed by
`CrawlEngine::crawl_page`: the status code (recorded whatever its value),
the `content-type` header, and the title and absolute links the `HtmlParser`
extracts from the body. -/
structure HttpResponse where
  status_code : Nat
  content_type : String
  body_title : String
  body_links : List String
deriving Repr, DecidableEq

/-- The engine's external collaborators, as oracles:
* `fetch url = some resp` is a completed `client.get(url)` round-trip followed
  by successful body/`Url::parse`/`parse_links` handling; `none` is any
  transport or parse failure (`?` in `crawl_page`);
* `domainOf url` is `Url::parse(url).ok().and_then(|u| u.domain())`;
* `robots_allowed url` is `RobotsChecker::is_allowed(url)`;
* `now` is the clock read `Utc::now()`. -/
structure Env where
  fetch : String → Option HttpResponse
  domainOf : String → Option String
  robots_allowed : String → Bool
  now : Int

/-- The engine's shared state: `visited` (`DashMap<String,()>` as an insertion
list), `results`, `stats`, the `active_jobs` atomic, the job channel contents
(`queue`), and whether the channel is closed (`tx.send` fails). -/
structure EngineState where
  visited : List String
  results : List PageResult
  stats : CrawlStats
  active_jobs : Nat
  queue : List CrawlJob
  closed : Bool
deriving Repr, DecidableEq

/-- The engine state right after `CrawlEngine::new` and channel creation. -/
def initState (now : Int) (closed : Bool) : EngineState :=
  { visited := [], results := [], stats := CrawlStats.new now
    active_jobs := 0, queue := [], closed := closed }

/-- Model of `CrawlEngine::crawl_page` (engine.rs:334-364): rate-limit, fetch, record
the response status (there is no branch on the status value), build the
`PageResult`; `none` propagates a transport/parse error. -/
def crawl_page (fetch : String → Option HttpResponse) (now : Int)
    (url : String) (depth : Nat) : Option PageResult :=
  match fetch url with
  | none => none
  | some r =>
      some { url := url, title := r.body_title, status_code := r.status_code
             depth := depth, links := r.body_links, error := none
             crawled_at := now, content_type := r.content_type }

/-- The domain-restriction test of `process_job` (engine.rs:267-278): reject
(`external_links += 1; return`) exactly when an allowed domain is configured,
the URL parses with a domain, and that domain is neither the allowed domain
nor a proper subdomain of it. -/
def domainReject (cfg : CrawlerConfig) (env : Env) (url : String) : Bool :=
  match cfg.allowed_domain with
  | none => false
  | some allowed_domain =>
      match env.domainOf url with
      | none => false
      | some domain => !(domain == allowed_domain)
          && !(strEndsWith domain ("." ++ allowed_domain))

/-- The link-admission loop of `process_job` (engine.rs:285-314), run only when
`job.depth < max_depth`: skip visited links, skip links the filter rejects,
skip links robots disallows (when enabled); otherwise increment `active_jobs`
and send `{link, depth+1}`; if the send fails the increment is reverted and the
loop breaks. -/
def enqueueLinks (cfg : CrawlerConfig) (url_filter : UrlFilter) (env : Env)
    (jobDepth : Nat) : List String → EngineState → EngineState
  | [], s => s
  | link :: rest, s =>
      if s.visited.contains link then
        enqueueLinks cfg url_filter env jobDepth rest s
      else if !(url_filter.should_crawl link) then
        enqueueLinks cfg url_filter env jobDepth rest s
      else if cfg.respect_robots_txt && !(env.robots_allowed link) then
        enqueueLinks cfg url_filter env jobDepth rest s
      else
        let s₁ := { s with active_jobs := s.active_jobs + 1 }
        if s₁.closed then
          { s₁ with active_jobs := s₁.active_jobs - 1 }
        else
          enqueueLinks cfg url_filter env jobDepth rest
            { s₁ with queue := s₁.queue ++ [{ url := link, depth := jobDepth + 1 }] }

/-- Model of `CrawlEngine::process_job` (engine.rs:249-332): decrement `active_jobs`
immediately; skip visited URLs; mark visited and count `pages_found`; apply the
domain restriction; crawl the page; on success enqueue links when depth allows,
store the result and count `pages_crawled`; on failure count `errors`. -/
def process_job (cfg : CrawlerConfig) (url_filter : UrlFilter) (env : Env)
    (job : CrawlJob) (s : EngineState) : EngineState :=
  let s₁ := { s with active_jobs := s.active_jobs - 1 }
  if s₁.visited.contains job.url then s₁
  else
    let s₂ := { s₁ with visited := s₁.visited ++ [job.url] }
    let s₃ := { s₂ with stats := { s₂.stats with pages_found := s₂.stats.pages_found + 1 } }
    if domainReject cfg env job.url then
      { s₃ with stats := { s₃.stats with external_links := s₃.stats.external_links + 1 } }
    else
      match crawl_page env.fetch env.now job.url job.depth with
      | some result =>
          let s₄ :=
            if job.depth < cfg.max_depth then
              enqueueLinks cfg url_filter env job.depth result.links s₃
            else s₃
          let s₅ := { s₄ with results := s₄.results ++ [result] }
          { s₅ with stats := { s₅.stats with pages_crawled := s₅.stats.pages_crawled + 1 } }
      | none =>
          { s₃ with stats := { s₃.stats with errors := s₃.stats.errors + 1 } }

/-- One enqueue by the seeding phase of `CrawlEngine::crawl`: increment
`active_jobs` *before* `tx.send` (the seeding sends go through `?` while the
receiver is alive, so they succeed). -/
def seedSend (url : String) (depth : Nat) (s : EngineState) : EngineState :=
  { s with active_jobs := s.active_jobs + 1
           queue := s.queue ++ [{ url := url, depth := depth }] }

/-- The sitemap branch of seeding (engine.rs:85-96): each sitemap URL not yet
visited is seeded at depth 1. -/
def seedSitemapUrls (urls : List String) (s : EngineState) : EngineState :=
  urls.foldl (fun s url => if s.visited.contains url then s else seedSend url 1 s) s

/-- The seeding phase of `CrawlEngine::crawl` (engine.rs:78-131).
`sitemapResult` is the outcome of `SitemapParser::fetch_sitemap_urls`
(`some urls` for `Ok(urls)`, `none` for `Err`): a non-empty `Ok` seeds the
sitemap URLs at depth 1; an empty `Ok`, an `Err`, a missing allowed domain, or
`use_sitemap = false` all seed the base URL at depth 0. -/
def seed (cfg : CrawlerConfig) (sitemapResult : Option (List String))
    (s : EngineState) : EngineState :=
  if cfg.use_sitemap then
    match cfg.allowed_domain with
    | some _ =>
        match sitemapResult with
        | some urls =>
            if !urls.isEmpty then seedSitemapUrls urls s
            else seedSend cfg.base_url 0 s
        | none => seedSend cfg.base_url 0 s
    | none => seedSend cfg.base_url 0 s
  else seedSend cfg.base_url 0 s

/-- One worker iteration that dequeues a job (engine.rs:141-166): the job is
removed from the channel and handed to `process_job`; an empty queue is the
recv timeout (state unchanged). -/
def workerStep (cfg : CrawlerConfig) (url_filter : UrlFilter) (env : Env)
    (s : EngineState) : EngineState :=
  match s.queue with
  | [] => s
  | job :: rest => process_job cfg url_filter env job { s with queue := rest }

/-- Runs `n` successive worker iterations. -/
def runSteps (cfg : CrawlerConfig) (url_filter : UrlFilter) (env : Env) :
    Nat → EngineState → EngineState
  | 0, s => s
  | n + 1, s => runSteps cfg url_filter env n (workerStep cfg url_filter env s)

/-! ## Checkpoint store (`src/crawler/checkpoint.rs`)

`serde_json` values are embedded as a `Json` tree (integers suffice for every
numeric field of the persisted types; `DateTime<Utc>` round-trips through its
RFC 3339 text exactly, so a timestamp is embedded as its integer value).
The encoders mirror the derived `Serialize` impls field by field, including
`rename_all = "camelCase"` on `PageResult`/`CrawlStats` and
`skip_serializing_if = "Option::is_none"`; the decoders mirror the derived
`Deserialize` impls (field lookup by name, absent or null optionals = `None`).
`HashSet<String>` is embedded as its iteration list. -/

inductive Json where
  | null : Json
  | num : Int → Json
  | str : String → Json
  | arr : List Json → Json
  | obj : List (String × Json) → Json
deriving Repr

/-- Field lookup in a serialized JSON object. -/
def getField (fields : List (String × Json)) (key : String) : Option Json :=
  (fields.find? fun p => p.1 == key).map (·.2)

def asStr : Json → Option String
  | .str s => some s
  | _ => none

def asNat : Json → Option Nat
  | .num n => if 0 ≤ n then some n.toNat else none
  | _ => none

def asInt : Json → Option Int
  | .num n => some n
  | _ => none

/-- Decode an optional field (serde: absent or `null` gives `None`). -/
def getOptField (fields : List (String × Json)) (key : String)
    (dec : Json → Option α) : Option (Option α) :=
  match getField fields key with
  | none => some none
  | some .null => some none
  | some j => (dec j).map some

/-- Sequential decode of a list, failing on the first element that fails
(the behaviour of serde sequence deserialization). -/
def optMapList (f : α → Option β) : List α → Option (List β)
  | [] => some []
  | x :: xs => do
      let y ← f x
      let ys ← optMapList f xs
      pure (y :: ys)

def decStrList : Json → Option (List String)
  | .arr xs => optMapList asStr xs
  | _ => none

/-- Derived `Serialize` for `PageResult` (camelCase, `error` skipped if none). -/
def PageResult.toJson (r : PageResult) : Json :=
  .obj ([("url", .str r.url), ("title", .str r.title),
         ("statusCode", .num r.status_code), ("depth", .num r.depth),
         ("links", .arr (r.links.map Json.str))]
    ++ (match r.error with | none => [] | some e => [("error", .str e)])
    ++ [("crawledAt", .num r.crawled_at), ("contentType", .str r.content_type)])

/-- Derived `Deserialize` for `PageResult`. -/
def PageResult.fromJson : Json → Option PageResult
  | .obj fields => do
      let url ← (getField fields "url").bind asStr
      let title ← (getField fields "title").bind asStr
      let status_code ← (getField fields "statusCode").bind asNat
      let depth ← (getField fields "depth").bind asNat
      let links ← (getField fields "links").bind decStrList
      let error ← getOptField fields "error" asStr
      let crawled_at ← (getField fields "crawledAt").bind asInt
      let content_type ← (getField fields "contentType").bind asStr
      some { url, title, status_code, depth, links, error, crawled_at, content_type }
  | _ => none

/-- Derived `Serialize` for `CrawlStats` (camelCase, optionals skipped if none). -/
def CrawlStats.toJson (st : CrawlStats) : Json :=
  .obj ([("pagesFound", .num st.pages_found), ("pagesCrawled", .num st.pages_crawled),
         ("externalLinks", .num st.external_links),
         ("excludedLinks", .num st.excluded_links), ("errors", .num st.errors),
         ("startTime", .num st.start_time)]
    ++ (match st.end_time with | none => [] | some t => [("endTime", .num t)])
    ++ (match st.duration with | none => [] | some d => [("duration", .num d)]))

/-- Derived `Deserialize` for `CrawlStats`. -/
def CrawlStats.fromJson : Json → Option CrawlStats
  | .obj fields => do
      let pages_found ← (getField fields "pagesFound").bind asNat
      let pages_crawled ← (getField fields "pagesCrawled").bind asNat
      let external_links ← (getField fields "externalLinks").bind asNat
      let excluded_links ← (getField fields "excludedLinks").bind asNat
      let errors ← (getField fields "errors").bind asNat
      let start_time ← (getField fields "startTime").bind asInt
      let end_time ← getOptField fields "endTime" asInt
      let duration ← getOptField fields "duration" asInt
      some { pages_found, pages_crawled, external_links, excluded_links, errors
             start_time, end_time, duration }
  | _ => none

/-- Model of `Checkpoint` from `src/crawler/checkpoint.rs`. -/
structure Checkpoint where
  visited : List String
  results : List PageResult
  stats : CrawlStats
  timestamp : Int
  base_url : String
  config_hash : Nat
deriving Repr, DecidableEq

/-- Model of `Checkpoint::new` (timestamp = `Utc::now()`). -/
def Checkpoint.new (visited : List String) (results : List PageResult)
    (stats : CrawlStats) (base_url : String) (config_hash : Nat)
    (now : Int) : Checkpoint :=
  { visited, results, stats, timestamp := now, base_url, config_hash }

/-- Derived `Serialize` for `Checkpoint` (field names as in the struct). -/
def Checkpoint.toJson (c : Checkpoint) : Json :=
  .obj [("visited", .arr (c.visited.map Json.str)),
        ("results", .arr (c.results.map PageResult.toJson)),
        ("stats", c.stats.toJson),
        ("timestamp", .num c.timestamp),
        ("base_url", .str c.base_url),
        ("config_hash", .num c.config_hash)]

/-- Derived `Deserialize` for `Checkpoint`. -/
def Checkpoint.fromJson : Json → Option Checkpoint
  | .obj fields => do
      let visited ← (getField fields "visited").bind decStrList
      let results ← (getField fields "results").bind fun j =>
        match j with
        | .arr xs => optMapList PageResult.fromJson xs
        | _ => none
      let stats ← (getField fields "stats").bind CrawlStats.fromJson
      let timestamp ← (getField fields "timestamp").bind asInt
      let base_url ← (getField fields "base_url").bind asStr
      let config_hash ← (getField fields "config_hash").bind asNat
      some { visited, results, stats, timestamp, base_url, config_hash }
  | _ => none

/-- The filesystem: stored files (path to serialized content) and the set of
paths on which writes fail (`std::fs` errors). -/
structure Fs where
  files : List (String × Json)
  bad : List String

/-- A filesystem write; fails on a bad path (modelling `create_dir_all?`/`write?`). -/
def fsWrite (fs : Fs) (path : String) (content : Json) : Option Fs :=
  if fs.bad.contains path then none
  else some { fs with files := (path, content) :: fs.files }

/-- A filesystem read; `none` when the file does not exist. -/
def fsRead (fs : Fs) (path : String) : Option Json :=
  getField fs.files path

/-- Model of `Checkpoint::checkpoint_path`: `output_dir.join("checkpoint.json")`. -/
def checkpoint_path (output_dir : String) : String :=
  output_dir ++ "/checkpoint.json"

/-- Model of `Checkpoint::save`: serialize and write to `<output_dir>/checkpoint.json`. -/
def Checkpoint.save (c : Checkpoint) (output_dir : String) (fs : Fs) : Option Fs :=
  fsWrite fs (checkpoint_path output_dir) c.toJson

/-- Model of `Checkpoint::load`: read `<output_dir>/checkpoint.json` and parse it. -/
def Checkpoint.load (fs : Fs) (output_dir : String) : Option Checkpoint :=
  (fsRead fs (checkpoint_path output_dir)).bind Checkpoint.fromJson

/-- Model of `Checkpoint::exists`. -/
def checkpointFileOnDisk (fs : Fs) (output_dir : String) : Bool :=
  (fsRead fs (checkpoint_path output_dir)).isSome

/-- Model of `Checkpoint::is_valid`: the checkpoint matches the current run. -/
def Checkpoint.is_valid (c : Checkpoint) (base_url : String) (config_hash : Nat) : Bool :=
  c.base_url == base_url && c.config_hash == config_hash

/-- Model of `CheckpointManager` from `src/crawler/checkpoint.rs`. -/
structure CheckpointManager where
  output_dir : String
  config_hash : Nat
  base_url : String
  last_save : Option Int
  save_interval_secs : Nat
deriving Repr, DecidableEq

/-- Model of `CheckpointManager::new`. -/
def CheckpointManager.new (output_dir : String) (base_url : String)
    (config_hash : Nat) (save_interval_secs : Nat) : CheckpointManager :=
  { output_dir, config_hash, base_url, last_save := none, save_interval_secs }

/-- Model of `CheckpointManager::should_save`: true when never saved, or when the
elapsed seconds (`num_seconds() as u64`, wrapping for a negative difference)
reach the interval. -/
def CheckpointManager.should_save (m : CheckpointManager) (now : Int) : Bool :=
  match m.last_save with
  | none => true
  | some last =>
      let elapsed : Nat := ((now - last).emod (2 ^ 64)).toNat
      m.save_interval_secs ≤ elapsed

/-- Model of `CheckpointManager::save`: build the checkpoint, `Checkpoint::save` it with
`?`, and only then set `last_save`. The first component is `self` after the
call (unchanged when the write failed), the second the written filesystem. -/
def CheckpointManager.save (m : CheckpointManager) (now : Int)
    (visited : List String) (results : List PageResult) (stats : CrawlStats)
    (fs : Fs) : CheckpointManager × Option Fs :=
  let checkpoint := Checkpoint.new visited results stats m.base_url m.config_hash now
  match Checkpoint.save checkpoint m.output_dir fs with
  | none => (m, none)
  | some fs' => ({ m with last_save := some now }, some fs')

/-- Model of `CheckpointManager::try_load` (checkpoint.rs:151-170). -/
def CheckpointManager.try_load (m : CheckpointManager) (fs : Fs) : Option Checkpoint :=
  if !checkpointFileOnDisk fs m.output_dir then none
  else
    match Checkpoint.load fs m.output_dir with
    | some checkpoint =>
        if checkpoint.is_valid m.base_url m.config_hash then some checkpoint
        else none
    | none => none

/-! ## Concrete instances used to witness the theorems -/

/-- A sample page result. -/
def pr8 : PageResult :=
  { url := "http://h/", title := "T", status_code := 200, depth := 0
    links := ["http://h/a"], error := none, crawled_at := 3
    content_type := "text/html" }

/-- A sample checkpoint state. -/
def ck8 : Checkpoint :=
  { visited := ["http://h/", "http://h/a"], results := [pr8]
    stats := { CrawlStats.new 1 with pages_found := 2, pages_crawled := 1 }
    timestamp := 5, base_url := "http://h/", config_hash := 42 }

/-- An empty filesystem on which every write succeeds. -/
def fs8 : Fs := { files := [], bad := [] }

/-- A checkpoint manager that has never saved. -/
def m10 : CheckpointManager :=
  CheckpointManager.new "out" "http://h/" 42 60

/-- A filesystem on which writing the checkpoint file fails. -/
def fs10 : Fs := { files := [], bad := ["out/checkpoint.json"] }

/-- A base configuration for the concrete runs below. -/
def cfgBase : CrawlerConfig :=
  { base_url := "http://h/", allowed_domain := none, max_depth := 1
    max_workers := 2, rate_limit := 2, output_dir := "out", use_sitemap := false
    max_sitemap_urls := 1000, timeout := 30, respect_robots_txt := false
    exclude_patterns := [], include_patterns := [] }

/-- A filter with no compiled patterns (accepts every URL). -/
def filt0 : UrlFilter := UrlFilter.new (fun _ => none) [] []

/-- Sitemap-seeded run at `max_depth = 0`: the configuration. -/
def cfg2 : CrawlerConfig :=
  { cfgBase with allowed_domain := some "h", max_depth := 0, use_sitemap := true }

/-- Sitemap-seeded run at `max_depth = 0`: the environment (the sitemap URL
`http://h/a` serves a page with no links). -/
def env2 : Env :=
  { fetch := fun url =>
      if url == "http://h/a" then
        some { status_code := 200, content_type := "text/html"
               body_title := "A", body_links := [] }
      else none
    domainOf := fun url => if url == "http://h/a" then some "h" else none
    robots_allowed := fun _ => true, now := 0 }

/-- The state after seeding `cfg2` from the sitemap and one worker step. -/
def post2 : EngineState :=
  runSteps cfg2 filt0 env2 1 (seed cfg2 (some ["http://h/a"]) (initState 0 false))

/-- Base-URL-seeded run at `max_depth = 0`: the configuration. -/
def cfgW : CrawlerConfig := { cfgBase with max_depth := 0 }

/-- Environment where the base URL serves a page that links to `/a`. -/
def envW : Env :=
  { fetch := fun url =>
      if url == "http://h/" then
        some { status_code := 200, content_type := "text/html"
               body_title := "T", body_links := ["http://h/a"] }
      else none
    domainOf := fun _ => none
    robots_allowed := fun _ => true, now := 0 }

/-- The compile oracle for the default `\.jpg$` exclude pattern. -/
def compile3 : String → Option (String → Bool) := fun p =>
  if p == "\\.jpg$" then some (fun u => strEndsWith u ".jpg") else none

/-- The URL filter compiled from the default `\.jpg$` exclude pattern. -/
def filt3 : UrlFilter := UrlFilter.new compile3 ["\\.jpg$"] []

/-- Configuration for the excluded-link run. -/
def cfg3 : CrawlerConfig := { cfgBase with exclude_patterns := ["\\.jpg$"] }

/-- Environment where the base URL serves a page linking to `/pic.jpg`. -/
def env3 : Env :=
  { fetch := fun url =>
      if url == "http://h/" then
        some { status_code := 200, content_type := "text/html"
               body_title := "T", body_links := ["http://h/pic.jpg"] }
      else none
    domainOf := fun _ => none
    robots_allowed := fun _ => true, now := 0 }

/-- A state in which the seed job has just been dequeued. -/
def stDeq : EngineState := { initState 0 false with active_jobs := 1 }

/-- The state after processing the seed job of the excluded-link run. -/
def post3 : EngineState := process_job cfg3 filt3 env3 { url := "http://h/", depth := 0 } stDeq

/-- Environment where the base URL answers `404 Not Found` with a body that
still contains a link. -/
def env4 : Env :=
  { fetch := fun url =>
      if url == "http://h/" then
        some { status_code := 404, content_type := "text/html"
               body_title := "Not Found", body_links := ["http://h/a"] }
      else none
    domainOf := fun _ => none
    robots_allowed := fun _ => true, now := 0 }

/-- Response record of the `404` answer of `env4`. -/
def resp404 : HttpResponse :=
  { status_code := 404, content_type := "text/html"
    body_title := "Not Found", body_links := ["http://h/a"] }

/-- The state after processing the seed job of the `404` run. -/
def post4 : EngineState := process_job cfgBase filt0 env4 { url := "http://h/", depth := 0 } stDeq

/-- Configuration restricted to the domain `h`. -/
def cfg7 : CrawlerConfig := { cfgBase with allowed_domain := some "h" }

/-- Environment where `http://other/x` parses with domain `other`. -/
def env7 : Env :=
  { fetch := fun _ => none
    domainOf := fun url => if url == "http://other/x" then some "other" else none
    robots_allowed := fun _ => true, now := 0 }

/-- Environment for a URL with an IP-literal host: `Url::parse` succeeds but
`Url::domain()` is `None` for an IP address, so the oracle returns `none`;
the page itself is served. -/
def envIP : Env :=
  { fetch := fun url =>
      if url == "http://1.2.3.4/x" then
        some { status_code := 200, content_type := "text/html"
               body_title := "X", body_links := [] }
      else none
    domainOf := fun _ => none
    robots_allowed := fun _ => true, now := 0 }

/-- The state after processing the IP-host job under the `h` domain restriction. -/
def postIP : EngineState :=
  process_job cfg7 filt0 envIP { url := "http://1.2.3.4/x", depth := 0 } stDeq

/-! ## Helper lemmas -/

lemma should_crawl_eq_false_iff (f : UrlFilter) (url : String) :
    f.should_crawl url = false ↔
      (f.include_patterns ≠ [] ∧ ∀ m ∈ f.include_patterns, m url = false) ∨
      (∃ m ∈ f.exclude_patterns, m url = true) := by
  unfold UrlFilter.should_crawl
  cases hI : f.include_patterns.isEmpty <;>
    cases hA : f.include_patterns.any (fun re => re url) <;>
      cases hE : f.exclude_patterns.any (fun re => re url) <;>
        simp_all [List.isEmpty_iff, List.any_eq_true]

/-! ## Claim theorems: URL filter and rate limiter -/

/-- Claim C6. `UrlFilter::should_crawl(url)` returns `false` iff the compiled
include set is non-empty and `url` matches none of its patterns, or `url`
matches some compiled exclude pattern; and construction keeps exactly the
pattern sources that compile (`filterMap compile`), silently dropping the rest. -/
theorem url_filter_decision (compile : String → Option (String → Bool))
    (excl incl : List String) (url : String) :
    ((UrlFilter.new compile excl incl).should_crawl url = false ↔
      ((incl.filterMap compile ≠ [] ∧ ∀ m ∈ incl.filterMap compile, m url = false) ∨
       (∃ m ∈ excl.filterMap compile, m url = true))) ∧
    (UrlFilter.new compile excl incl).exclude_patterns = excl.filterMap compile ∧
    (UrlFilter.new compile excl incl).include_patterns = incl.filterMap compile :=
  ⟨should_crawl_eq_false_iff (UrlFilter.new compile excl incl) url, rfl, rfl⟩

/-- Claim C5. Evaluating `RateLimiter::new` at the positive rate 1/128 req/s:
`(1/128 * 60.0) as u32 = 0`, so `NonZeroU32::new(0).unwrap()` panics
(modelled as `none`); construction does not succeed for every positive rate. -/
theorem rate_limiter_new_panics_on_small_rate :
    (0 : ℚ) < 1 / 128 ∧ RateLimiter.new (1 / 128) = none := by
  constructor
  · norm_num
  · have hnum : (1 / 128 * 60 : ℚ).num = 15 := by norm_num
    have hden : (1 / 128 * 60 : ℚ).den = 32 := by norm_num
    simp only [RateLimiter.new, ratAsU32]
    rw [hnum, hden]
    norm_num
    intro h
    exact absurd (by decide) h

lemma optMapList_roundtrip {f : α → Option β} {g : β → α}
    (h : ∀ b, f (g b) = some b) (xs : List β) :
    optMapList f (xs.map g) = some xs := by
  induction xs with
  | nil => rfl
  | cons x xs ih => simp [optMapList, h, ih]

lemma decStrList_map_str (xs : List String) :
    decStrList (.arr (xs.map Json.str)) = some xs := by
  show optMapList asStr (xs.map Json.str) = some xs
  exact @optMapList_roundtrip _ _ asStr Json.str (fun _ => rfl) xs

lemma pageResult_fromJson_toJson (r : PageResult) :
    PageResult.fromJson r.toJson = some r := by
  obtain ⟨url, title, status_code, depth, links, error, crawled_at, content_type⟩ := r
  cases error <;>
    simp [PageResult.toJson, PageResult.fromJson, getField, getOptField,
      List.find?, asStr, asNat, asInt, decStrList_map_str]

lemma crawlStats_fromJson_toJson (st : CrawlStats) :
    CrawlStats.fromJson st.toJson = some st := by
  obtain ⟨pages_found, pages_crawled, external_links, excluded_links, errors,
    start_time, end_time, duration⟩ := st
  cases end_time <;> cases duration <;>
    simp [CrawlStats.toJson, CrawlStats.fromJson, getField, getOptField,
      List.find?, asNat, asInt]

lemma checkpoint_fromJson_toJson (c : Checkpoint) :
    Checkpoint.fromJson c.toJson = some c := by
  obtain ⟨visited, results, stats, timestamp, base_url, config_hash⟩ := c
  simp [Checkpoint.toJson, Checkpoint.fromJson, getField, List.find?,
    asStr, asNat, asInt, decStrList_map_str, crawlStats_fromJson_toJson,
    @optMapList_roundtrip _ _ PageResult.fromJson PageResult.toJson
      pageResult_fromJson_toJson]

/-- Claim C8. Checkpoint round-trip: saving a checkpoint state to an output
directory (on a filesystem where that write succeeds) and loading from that
directory returns a checkpoint equal to the saved one. -/
theorem checkpoint_save_load_roundtrip (c : Checkpoint) (output_dir : String)
    (fs : Fs) (h : fs.bad.contains (checkpoint_path output_dir) = false) :
    (Checkpoint.save c output_dir fs).bind
      (fun fs' => Checkpoint.load fs' output_dir) = some c := by
  have h' : ¬ (checkpoint_path output_dir ∈ fs.bad) := by simpa using h
  simp [Checkpoint.save, fsWrite, h', Checkpoint.load, fsRead, getField,
    List.find?, checkpoint_fromJson_toJson]

/-- Witness for C8 at a concrete checkpoint and an empty filesystem. -/
theorem checkpoint_save_load_roundtrip_witness :
    (Checkpoint.save ck8 "out" fs8).bind
      (fun fs' => Checkpoint.load fs' "out") = some ck8 :=
  checkpoint_save_load_roundtrip ck8 "out" fs8 rfl

/-- Claim C9. `CheckpointManager::try_load` returns `some c` iff the checkpoint
file exists, parses as a `Checkpoint` `c`, and both `base_url` and
`config_hash` equal the current run's; in every other case it returns `none`. -/
theorem try_load_spec (m : CheckpointManager) (fs : Fs) (c : Checkpoint) :
    m.try_load fs = some c ↔
      (checkpointFileOnDisk fs m.output_dir = true ∧
       Checkpoint.load fs m.output_dir = some c ∧
       c.base_url = m.base_url ∧ c.config_hash = m.config_hash) := by
  unfold CheckpointManager.try_load
  cases hE : checkpointFileOnDisk fs m.output_dir
  · simp [hE]
  · simp only [hE, Bool.not_true, Bool.false_eq_true, if_false]
    cases hL : Checkpoint.load fs m.output_dir with
    | none => simp
    | some c' =>
        cases hV : c'.is_valid m.base_url m.config_hash
        · simp only [hV, Bool.false_eq_true, if_false]
          constructor
          · intro h
            simp at h
          · rintro ⟨-, hc, hb, hh⟩
            obtain rfl : c' = c := by simpa using hc
            simp [Checkpoint.is_valid, hb, hh] at hV
        · have hV' := hV
          simp only [Checkpoint.is_valid, Bool.and_eq_true, beq_iff_eq] at hV'
          simp only [hV, if_true, Option.some.injEq]
          constructor
          · rintro rfl
            exact ⟨trivial, rfl, hV'.1, hV'.2⟩
          · rintro ⟨-, hc, -, -⟩
            exact hc

/-- Claim C10. `CheckpointManager::save` sets `last_save` only after the
checkpoint is serialized and written; on a failed save the manager (hence
`last_save`) is unchanged and `should_save` answers as before, and
`should_save` is always true while no save has ever succeeded. -/
theorem checkpoint_manager_save_failure (m : CheckpointManager) (now : Int)
    (visited : List String) (results : List PageResult) (stats : CrawlStats)
    (fs : Fs) :
    ((m.save now visited results stats fs).2 = none →
      (m.save now visited results stats fs).1 = m) ∧
    (m.last_save = none → ∀ t, m.should_save t = true) ∧
    ((m.save now visited results stats fs).2 = none →
      ∀ t, (m.save now visited results stats fs).1.should_save t = m.should_save t) := by
  refine ⟨?_, ?_, ?_⟩
  · intro h
    unfold CheckpointManager.save at *
    cases hW : Checkpoint.save
        (Checkpoint.new visited results stats m.base_url m.config_hash now)
        m.output_dir fs <;> simp [hW] at h ⊢
  · intro h t
    simp [CheckpointManager.should_save, h]
  · intro h t
    unfold CheckpointManager.save at *
    cases hW : Checkpoint.save
        (Checkpoint.new visited results stats m.base_url m.config_hash now)
        m.output_dir fs <;> simp [hW] at h ⊢

/-- Witness for C10: a manager that has never saved, on a filesystem where the
checkpoint write fails. -/
theorem checkpoint_manager_save_failure_witness :
    (CheckpointManager.save m10 7 [] [] (CrawlStats.new 0) fs10).1 = m10 ∧
    CheckpointManager.should_save m10 3 = true ∧
    (CheckpointManager.save m10 7 [] [] (CrawlStats.new 0) fs10).1.should_save 3 =
      CheckpointManager.should_save m10 3 := by
  have h := checkpoint_manager_save_failure m10 7 [] [] (CrawlStats.new 0) fs10
  exact ⟨h.1 rfl, h.2.1 rfl 3, h.2.2 rfl 3⟩

/-! ## Engine lemmas -/

lemma enqueueLinks_inv (cfg : CrawlerConfig) (f : UrlFilter) (env : Env)
    (d : Nat) (links : List String) (s : EngineState)
    (h : s.queue.length ≤ s.active_jobs) :
    (enqueueLinks cfg f env d links s).queue.length ≤
      (enqueueLinks cfg f env d links s).active_jobs := by
  induction links generalizing s with
  | nil => simpa [enqueueLinks]
  | cons link rest ih =>
      simp only [enqueueLinks]
      split
      · exact ih s h
      · split
        · exact ih s h
        · split
          · exact ih s h
          · split
            · simpa
            · refine ih _ ?_
              simpa using Nat.succ_le_succ h

lemma process_job_inv (cfg : CrawlerConfig) (f : UrlFilter) (env : Env)
    (job : CrawlJob) (s : EngineState)
    (h : s.queue.length + 1 ≤ s.active_jobs) :
    (process_job cfg f env job s).queue.length ≤
      (process_job cfg f env job s).active_jobs := by
  simp only [process_job]
  split
  · simpa using Nat.le_sub_of_add_le h
  · split
    · simpa using Nat.le_sub_of_add_le h
    · split
      · split
        · exact enqueueLinks_inv cfg f env job.depth _ _
            (by simpa using Nat.le_sub_of_add_le h)
        · simpa using Nat.le_sub_of_add_le h
      · simpa using Nat.le_sub_of_add_le h

lemma workerStep_inv (cfg : CrawlerConfig) (f : UrlFilter) (env : Env)
    (s : EngineState) (h : s.queue.length ≤ s.active_jobs) :
    (workerStep cfg f env s).queue.length ≤ (workerStep cfg f env s).active_jobs := by
  unfold workerStep
  cases hq : s.queue with
  | nil => simpa
  | cons job rest =>
      refine process_job_inv cfg f env job _ ?_
      rw [hq] at h
      simpa using h

lemma runSteps_inv (cfg : CrawlerConfig) (f : UrlFilter) (env : Env)
    (n : Nat) (s : EngineState) (h : s.queue.length ≤ s.active_jobs) :
    (runSteps cfg f env n s).queue.length ≤ (runSteps cfg f env n s).active_jobs := by
  induction n generalizing s with
  | zero => simpa [runSteps]
  | succ n ih => exact ih _ (workerStep_inv cfg f env s h)

lemma seedSend_inv (url : String) (d : Nat) (s : EngineState)
    (h : s.queue.length ≤ s.active_jobs) :
    (seedSend url d s).queue.length ≤ (seedSend url d s).active_jobs := by
  simpa [seedSend] using Nat.succ_le_succ h

lemma seedSitemapUrls_inv (urls : List String) (s : EngineState)
    (h : s.queue.length ≤ s.active_jobs) :
    (seedSitemapUrls urls s).queue.length ≤ (seedSitemapUrls urls s).active_jobs := by
  induction urls generalizing s with
  | nil => simpa [seedSitemapUrls]
  | cons url rest ih =>
      simp only [seedSitemapUrls, List.foldl_cons] at *
      split
      · exact ih s h
      · exact ih _ (seedSend_inv url 1 s h)

lemma seed_inv (cfg : CrawlerConfig) (sm : Option (List String)) (s : EngineState)
    (h : s.queue.length ≤ s.active_jobs) :
    (seed cfg sm s).queue.length ≤ (seed cfg sm s).active_jobs := by
  unfold seed
  split
  · split
    · split
      · split
        · exact seedSitemapUrls_inv _ s h
        · exact seedSend_inv _ 0 s h
      · exact seedSend_inv _ 0 s h
    · exact seedSend_inv _ 0 s h
  · exact seedSend_inv _ 0 s h

/-- Claim C1. Under the `active_jobs` protocol embodied in `seed` (increment
before each seeding enqueue), `process_job` (decrement immediately on dequeue;
increment before each child enqueue, reverted when the channel is closed), the
counter dominates the queue: at every point of a crawl run, `active_jobs` is
at least the number of jobs currently in the queue. -/
theorem active_jobs_ge_queue_length (cfg : CrawlerConfig) (f : UrlFilter)
    (env : Env) (sm : Option (List String)) (t : Int) (closed : Bool) (n : Nat) :
    (runSteps cfg f env n (seed cfg sm (initState t closed))).queue.length ≤
      (runSteps cfg f env n (seed cfg sm (initState t closed))).active_jobs :=
  runSteps_inv cfg f env n _ (seed_inv cfg sm _ (by simp [initState]))

lemma enqueueLinks_preserves (cfg : CrawlerConfig) (f : UrlFilter) (env : Env)
    (d : Nat) (links : List String) (s : EngineState) :
    (enqueueLinks cfg f env d links s).results = s.results ∧
    (enqueueLinks cfg f env d links s).stats = s.stats ∧
    (enqueueLinks cfg f env d links s).visited = s.visited := by
  induction links generalizing s with
  | nil => simp [enqueueLinks]
  | cons link rest ih =>
      simp only [enqueueLinks]
      split
      · exact ih s
      · split
        · exact ih s
        · split
          · exact ih s
          · split
            · simp
            · simpa using ih _

lemma enqueueLinks_queue_mem (cfg : CrawlerConfig) (f : UrlFilter) (env : Env)
    (d : Nat) (links : List String) (s : EngineState) (j : CrawlJob)
    (hj : j ∈ (enqueueLinks cfg f env d links s).queue) :
    j ∈ s.queue ∨ j.depth = d + 1 := by
  induction links generalizing s with
  | nil => simpa [enqueueLinks] using Or.inl hj
  | cons link rest ih =>
      simp only [enqueueLinks] at hj
      split at hj
      · exact ih s hj
      · split at hj
        · exact ih s hj
        · split at hj
          · exact ih s hj
          · split at hj
            · simpa using Or.inl hj
            · rcases ih _ hj with h | h
              · simp only [List.mem_append, List.mem_singleton] at h
                rcases h with h | rfl
                · exact Or.inl h
                · exact Or.inr rfl
              · exact Or.inr h

lemma process_job_results_mem (cfg : CrawlerConfig) (f : UrlFilter) (env : Env)
    (job : CrawlJob) (s : EngineState) (r : PageResult)
    (hr : r ∈ (process_job cfg f env job s).results) :
    r ∈ s.results ∨ (r.url = job.url ∧ r.depth = job.depth) := by
  simp only [process_job] at hr
  split at hr
  · exact Or.inl hr
  · split at hr
    · exact Or.inl hr
    · rcases hf : env.fetch job.url with _ | resp
      · rw [crawl_page, hf] at hr
        exact Or.inl hr
      · rw [crawl_page, hf] at hr
        simp only at hr
        split at hr
        · rw [(enqueueLinks_preserves cfg f env job.depth resp.body_links _).1] at hr
          simp only [List.mem_append, List.mem_singleton] at hr
          rcases hr with h | rfl
          · exact Or.inl h
          · exact Or.inr ⟨rfl, rfl⟩
        · simp only [List.mem_append, List.mem_singleton] at hr
          rcases hr with h | rfl
          · exact Or.inl h
          · exact Or.inr ⟨rfl, rfl⟩

lemma process_job_queue_mem (cfg : CrawlerConfig) (f : UrlFilter) (env : Env)
    (job : CrawlJob) (s : EngineState) (j : CrawlJob)
    (hj : j ∈ (process_job cfg f env job s).queue) :
    j ∈ s.queue ∨ (job.depth < cfg.max_depth ∧ j.depth = job.depth + 1) := by
  simp only [process_job] at hj
  split at hj
  · exact Or.inl hj
  · split at hj
    · exact Or.inl hj
    · rcases hf : env.fetch job.url with _ | resp
      · rw [crawl_page, hf] at hj
        exact Or.inl hj
      · rw [crawl_page, hf] at hj
        simp only at hj
        split at hj
        · rename_i hd
          rcases enqueueLinks_queue_mem cfg f env job.depth resp.body_links _ j hj
            with h | h
          · exact Or.inl h
          · exact Or.inr ⟨hd, h⟩
        · exact Or.inl hj

lemma process_job_queue_eq_of_depth_ge (cfg : CrawlerConfig) (f : UrlFilter)
    (env : Env) (job : CrawlJob) (s : EngineState)
    (h : cfg.max_depth ≤ job.depth) :
    (process_job cfg f env job s).queue = s.queue := by
  simp only [process_job]
  split
  · rfl
  · split
    · rfl
    · rcases hf : env.fetch job.url with _ | resp
      · rw [crawl_page, hf]
      · rw [crawl_page, hf]
        simp only
        rw [if_neg (by omega)]

/-- Depth bound on every queued job and every recorded result. -/
def depthOk (D : Nat) (s : EngineState) : Prop :=
  (∀ j ∈ s.queue, j.depth ≤ D) ∧ (∀ r ∈ s.results, r.depth ≤ D)

lemma workerStep_depthOk (cfg : CrawlerConfig) (f : UrlFilter) (env : Env)
    (D : Nat) (hD : cfg.max_depth ≤ D) (s : EngineState) (h : depthOk D s) :
    depthOk D (workerStep cfg f env s) := by
  unfold workerStep
  cases hq : s.queue with
  | nil => exact h
  | cons job rest =>
      have hjob : job.depth ≤ D := h.1 job (hq ▸ List.mem_cons_self job rest)
      constructor
      · intro j hj
        rcases process_job_queue_mem cfg f env job _ j hj with hmem | ⟨hlt, hdep⟩
        · exact h.1 j (hq ▸ List.mem_cons_of_mem job hmem)
        · omega
      · intro r hr
        rcases process_job_results_mem cfg f env job _ r hr with hmem | ⟨-, hdep⟩
        · exact h.2 r hmem
        · omega

lemma runSteps_depthOk (cfg : CrawlerConfig) (f : UrlFilter) (env : Env)
    (D : Nat) (hD : cfg.max_depth ≤ D) (n : Nat) (s : EngineState)
    (h : depthOk D s) : depthOk D (runSteps cfg f env n s) := by
  induction n generalizing s with
  | zero => exact h
  | succ n ih => exact ih _ (workerStep_depthOk cfg f env D hD s h)

lemma seedSitemapUrls_queue_mem (urls : List String) (s : EngineState)
    (j : CrawlJob) (hj : j ∈ (seedSitemapUrls urls s).queue) :
    j ∈ s.queue ∨ j.depth = 1 := by
  induction urls generalizing s with
  | nil => exact Or.inl hj
  | cons url rest ih =>
      simp only [seedSitemapUrls, List.foldl_cons] at hj
      split at hj
      · exact ih s hj
      · rcases ih _ hj with h | h
        · simp only [seedSend, List.mem_append, List.mem_singleton] at h
          rcases h with h | rfl
          · exact Or.inl h
          · exact Or.inr rfl
        · exact Or.inr h

lemma seedSitemapUrls_results (urls : List String) (s : EngineState) :
    (seedSitemapUrls urls s).results = s.results := by
  induction urls generalizing s with
  | nil => rfl
  | cons url rest ih =>
      simp only [seedSitemapUrls, List.foldl_cons]
      split
      · exact ih s
      · exact ih (seedSend url 1 s)

lemma seed_queue_mem (cfg : CrawlerConfig) (sm : Option (List String))
    (s : EngineState) (j : CrawlJob) (hj : j ∈ (seed cfg sm s).queue) :
    j ∈ s.queue ∨ j.depth ≤ 1 := by
  have hbase : ∀ d, d ≤ 1 → j ∈ (seedSend cfg.base_url d s).queue →
      j ∈ s.queue ∨ j.depth ≤ 1 := by
    intro d hd hj
    simp only [seedSend, List.mem_append, List.mem_singleton] at hj
    rcases hj with h | rfl
    · exact Or.inl h
    · exact Or.inr hd
  unfold seed at hj
  split at hj
  · split at hj
    · split at hj
      · split at hj
        · rcases seedSitemapUrls_queue_mem _ s j hj with h | h
          · exact Or.inl h
          · exact Or.inr (by omega)
        · exact hbase 0 (by omega) hj
      · exact hbase 0 (by omega) hj
    · exact hbase 0 (by omega) hj
  · exact hbase 0 (by omega) hj

lemma seed_results (cfg : CrawlerConfig) (sm : Option (List String))
    (s : EngineState) : (seed cfg sm s).results = s.results := by
  unfold seed
  split
  · split
    · split
      · split
        · exact seedSitemapUrls_results _ s
        · rfl
      · rfl
    · rfl
  · rfl

lemma seed_base_queue (cfg : CrawlerConfig) (sm : Option (List String))
    (h : cfg.use_sitemap = false) (s : EngineState) :
    (seed cfg sm s).queue = s.queue ++ [{ url := cfg.base_url, depth := 0 }] := by
  unfold seed
  rw [if_neg (by simp [h])]
  rfl

/-- Every queued job and every result names the base URL at depth 0. -/
def seedOnly (base : String) (s : EngineState) : Prop :=
  (∀ j ∈ s.queue, j = { url := base, depth := 0 }) ∧
  (∀ r ∈ s.results, r.url = base ∧ r.depth = 0)

lemma workerStep_seedOnly (cfg : CrawlerConfig) (f : UrlFilter) (env : Env)
    (hmax : cfg.max_depth = 0) (s : EngineState)
    (h : seedOnly cfg.base_url s) : seedOnly cfg.base_url (workerStep cfg f env s) := by
  unfold workerStep
  cases hq : s.queue with
  | nil => exact h
  | cons job rest =>
      have hjob : job = { url := cfg.base_url, depth := 0 } :=
        h.1 job (hq ▸ List.mem_cons_self job rest)
      constructor
      · intro j hj
        rcases process_job_queue_mem cfg f env job _ j hj with hmem | ⟨hlt, -⟩
        · exact h.1 j (hq ▸ List.mem_cons_of_mem job hmem)
        · omega
      · intro r hr
        rcases process_job_results_mem cfg f env job _ r hr with hmem | ⟨hurl, hdep⟩
        · exact h.2 r hmem
        · rw [hjob] at hurl hdep
          exact ⟨hurl, hdep⟩

lemma runSteps_seedOnly (cfg : CrawlerConfig) (f : UrlFilter) (env : Env)
    (hmax : cfg.max_depth = 0) (n : Nat) (s : EngineState)
    (h : seedOnly cfg.base_url s) : seedOnly cfg.base_url (runSteps cfg f env n s) := by
  induction n generalizing s with
  | zero => exact h
  | succ n ih => exact ih _ (workerStep_seedOnly cfg f env hmax s h)

/-- Claim C2, amended. Depth discipline of the engine: (i) every recorded
`PageResult` has depth at most `max (max_depth, 1)` — sitemap seeding creates
jobs at depth 1, so depth 1 results exist even when `max_depth = 0`; (ii) when
seeding starts from the base URL (`use_sitemap = false`) every result depth is
at most `max_depth`; (iii) links discovered while processing a job whose depth
is at least `max_depth` are never enqueued; (iv) with `max_depth = 0` and
base-URL seeding, only the seed URL is fetched (every result is the seed at
depth 0). -/
theorem crawl_depth_bounds (cfg : CrawlerConfig) (f : UrlFilter) (env : Env)
    (sm : Option (List String)) (t : Int) (closed : Bool) (n : Nat) :
    (∀ r ∈ (runSteps cfg f env n (seed cfg sm (initState t closed))).results,
        r.depth ≤ max cfg.max_depth 1) ∧
    (cfg.use_sitemap = false →
      ∀ r ∈ (runSteps cfg f env n (seed cfg sm (initState t closed))).results,
        r.depth ≤ cfg.max_depth) ∧
    (∀ job s, cfg.max_depth ≤ job.depth →
        (process_job cfg f env job s).queue = s.queue) ∧
    (cfg.use_sitemap = false → cfg.max_depth = 0 →
      ∀ r ∈ (runSteps cfg f env n (seed cfg sm (initState t closed))).results,
        r.url = cfg.base_url ∧ r.depth = 0) := by
  refine ⟨?_, ?_, ?_, ?_⟩
  · refine (runSteps_depthOk cfg f env (max cfg.max_depth 1) (le_max_left _ _) n _
      ⟨?_, ?_⟩).2
    · intro j hj
      rcases seed_queue_mem cfg sm _ j hj with h | h
      · simp [initState] at h
      · omega
    · intro r hr
      rw [seed_results] at hr
      simp [initState] at hr
  · intro hsm
    refine (runSteps_depthOk cfg f env cfg.max_depth (le_refl _) n _ ⟨?_, ?_⟩).2
    · intro j hj
      rw [seed_base_queue cfg sm hsm] at hj
      simp [initState] at hj
      simp [hj]
    · intro r hr
      rw [seed_results] at hr
      simp [initState] at hr
  · intro job s h
    exact process_job_queue_eq_of_depth_ge cfg f env job s h
  · intro hsm hmax
    refine (runSteps_seedOnly cfg f env hmax n _ ⟨?_, ?_⟩).2
    · intro j hj
      rw [seed_base_queue cfg sm hsm] at hj
      simpa [initState] using hj
    · intro r hr
      rw [seed_results] at hr
      simp [initState] at hr

/-- Witness for C2 (amended) on a concrete base-URL-seeded run at
`max_depth = 0` in which the seed page is actually fetched. -/
theorem crawl_depth_bounds_witness :
    (∀ r ∈ (runSteps cfgW filt0 envW 1 (seed cfgW none (initState 0 false))).results,
        r.depth ≤ max cfgW.max_depth 1) ∧
    (∀ r ∈ (runSteps cfgW filt0 envW 1 (seed cfgW none (initState 0 false))).results,
        r.url = cfgW.base_url ∧ r.depth = 0) ∧
    (process_job cfgW filt0 envW { url := "http://h/", depth := 0 } stDeq).queue =
      stDeq.queue := by
  have h := crawl_depth_bounds cfgW filt0 envW none 0 false 1
  exact ⟨h.1, h.2.2.2 rfl rfl, h.2.2.1 { url := "http://h/", depth := 0 } stDeq (by decide)⟩

/-- Claim C2, counterexample. With `max_depth = 0` and sitemap seeding, the
engine fetches the sitemap URL (not the seed) at depth 1 and records a
`PageResult` whose depth exceeds `max_depth`. -/
theorem crawl_depth_counterexample :
    cfg2.max_depth = 0 ∧ cfg2.use_sitemap = true ∧
    post2.results.map PageResult.url = ["http://h/a"] ∧
    post2.results.map PageResult.depth = [1] ∧
    ¬ (∀ r ∈ post2.results, r.depth ≤ cfg2.max_depth) := by
  refine ⟨rfl, rfl, ?_, ?_, ?_⟩ <;> decide

/-- Claim C3. Evaluation at the spec's own scenario (a page linking to
`/pic.jpg`, rejected by the default `\.jpg$` exclude pattern): the link is
rejected by the filter, is not enqueued and is not counted in `pages_found` —
but `excluded_links` stays 0: `process_job` skips a filter-rejected link with
`continue` and never increments the counter. -/
theorem excluded_links_never_incremented :
    filt3.should_crawl "http://h/pic.jpg" = false ∧
    post3.stats.excluded_links = 0 ∧
    post3.queue = [] ∧
    post3.stats.pages_found = 1 ∧
    post3.stats.pages_crawled = 1 ∧
    post3.visited = ["http://h/"] := by
  decide

/-- Claim C4, counterexample. A `404` response is not treated as an error:
no `errors` increment, a `PageResult` with `status_code = 404` is recorded,
`pages_crawled` is incremented, and the body's link is enqueued. -/
theorem http_error_not_counted_counterexample :
    400 ≤ 404 ∧
    post4.stats.errors = 0 ∧
    post4.results.map PageResult.status_code = [404] ∧
    post4.stats.pages_crawled = 1 ∧
    post4.queue.map CrawlJob.url = ["http://h/a"] := by
  decide

/-- Claim C4, amended. `crawl_page` never branches on the HTTP status: any
received response — `404` included — yields a `PageResult` carrying that
status code, counts toward `pages_crawled` and leaves `errors` unchanged
(its links are admitted as usual); only a transport/parse failure increments
`errors`, records no `PageResult` and enqueues nothing. -/
theorem process_job_ignores_http_status (cfg : CrawlerConfig) (f : UrlFilter)
    (env : Env) (job : CrawlJob) (s : EngineState)
    (hv : s.visited.contains job.url = false)
    (hd : domainReject cfg env job.url = false) :
    (∀ resp, env.fetch job.url = some resp →
      (process_job cfg f env job s).results = s.results ++
        [{ url := job.url, title := resp.body_title
           status_code := resp.status_code, depth := job.depth
           links := resp.body_links, error := none, crawled_at := env.now
           content_type := resp.content_type }] ∧
      (process_job cfg f env job s).stats.errors = s.stats.errors ∧
      (process_job cfg f env job s).stats.pages_crawled = s.stats.pages_crawled + 1) ∧
    (env.fetch job.url = none →
      (process_job cfg f env job s).results = s.results ∧
      (process_job cfg f env job s).queue = s.queue ∧
      (process_job cfg f env job s).stats.errors = s.stats.errors + 1 ∧
      (process_job cfg f env job s).stats.pages_crawled = s.stats.pages_crawled) := by
  constructor
  · intro resp hresp
    simp only [process_job, hv, Bool.false_eq_true, if_false, hd, crawl_page, hresp]
    split
    · rcases enqueueLinks_preserves cfg f env job.depth resp.body_links
        { s with visited := s.visited ++ [job.url]
                 stats := { s.stats with pages_found := s.stats.pages_found + 1 }
                 active_jobs := s.active_jobs - 1 } with ⟨h1, h2, -⟩
      simp [h1, h2]
    · simp
  · intro hresp
    simp only [process_job, hv, Bool.false_eq_true, if_false, hd, crawl_page, hresp]
    simp

/-- Witness for C4 (amended): the `404` run records the `404` result, counts it
as crawled and leaves `errors` untouched. -/
theorem process_job_ignores_http_status_witness :
    post4.results = stDeq.results ++
      [{ url := "http://h/", title := "Not Found", status_code := 404
         depth := 0, links := ["http://h/a"], error := none, crawled_at := 0
         content_type := "text/html" }] ∧
    post4.stats.errors = stDeq.stats.errors ∧
    post4.stats.pages_crawled = stDeq.stats.pages_crawled + 1 := by
  have h := process_job_ignores_http_status cfgBase filt0 env4
    { url := "http://h/", depth := 0 } stDeq rfl rfl
  exact h.1 resp404 rfl

/-- Claim C7, amended. With an allowed domain `ad` set, the scope check
applies only to dequeued URLs whose host parses as a domain name
(`Url::domain()` is `Some H`): such a URL is in scope iff `H = ad` or `H`
ends with `"." ++ ad`; an out-of-scope URL only increments `external_links` —
nothing is fetched, recorded or enqueued — and an in-scope URL leaves
`external_links` unchanged. A URL that does not parse, or whose host is not a
domain name (an IP literal), bypasses the check and is treated as in scope
even when its host is unrelated to `ad`. -/
theorem domain_scope_rule (cfg : CrawlerConfig) (f : UrlFilter) (env : Env)
    (job : CrawlJob) (s : EngineState) (ad : String)
    (had : cfg.allowed_domain = some ad)
    (hv : s.visited.contains job.url = false) :
    (∀ H, env.domainOf job.url = some H →
      (domainReject cfg env job.url = false ↔
        (H = ad ∨ strEndsWith H ("." ++ ad) = true))) ∧
    (env.domainOf job.url = none → domainReject cfg env job.url = false) ∧
    (domainReject cfg env job.url = true →
      (process_job cfg f env job s).stats.external_links =
        s.stats.external_links + 1 ∧
      (process_job cfg f env job s).results = s.results ∧
      (process_job cfg f env job s).queue = s.queue ∧
      (process_job cfg f env job s).stats.pages_crawled = s.stats.pages_crawled ∧
      (process_job cfg f env job s).stats.errors = s.stats.errors) ∧
    (domainReject cfg env job.url = false →
      (process_job cfg f env job s).stats.external_links =
        s.stats.external_links) := by
  refine ⟨?_, ?_, ?_, ?_⟩
  · intro H hH
    have hd_eq : domainReject cfg env job.url =
        (!(H == ad) && !(strEndsWith H ("." ++ ad))) := by
      simp only [domainReject, had, hH]
    rw [hd_eq]
    cases hEq : H == ad <;> cases hS : strEndsWith H ("." ++ ad) <;> simp_all
  · intro hN
    simp only [domainReject, had, hN]
  · intro hd
    have hv' : ¬ (job.url ∈ s.visited) := by simpa using hv
    simp [process_job, hv', hd]
  · intro hd
    simp only [process_job, hv, Bool.false_eq_true, if_false, hd]
    cases hf : env.fetch job.url with
    | none => simp [crawl_page, hf]
    | some resp =>
        simp only [crawl_page, hf]
        split
        · rcases enqueueLinks_preserves cfg f env job.depth resp.body_links
            { s with visited := s.visited ++ [job.url]
                     stats := { s.stats with pages_found := s.stats.pages_found + 1 }
                     active_jobs := s.active_jobs - 1 } with ⟨-, h2, -⟩
          simp [h2]
        · simp

/-- Witness for C7 (amended), applied at two concrete dequeued URLs against
allowed domain `h`: `http://other/x` (domain `other`, out of scope, only
`external_links` moves) and `http://1.2.3.4/x` (no parsed domain, check
bypassed). -/
theorem domain_scope_rule_witness :
    (domainReject cfg7 env7 "http://other/x" = false ↔
      ("other" = "h" ∨ strEndsWith "other" ("." ++ "h") = true)) ∧
    (process_job cfg7 filt0 env7 { url := "http://other/x", depth := 0 }
        stDeq).stats.external_links = stDeq.stats.external_links + 1 ∧
    (process_job cfg7 filt0 env7 { url := "http://other/x", depth := 0 }
        stDeq).results = stDeq.results ∧
    (process_job cfg7 filt0 env7 { url := "http://other/x", depth := 0 }
        stDeq).queue = stDeq.queue ∧
    domainReject cfg7 envIP "http://1.2.3.4/x" = false := by
  have h := domain_scope_rule cfg7 filt0 env7
    { url := "http://other/x", depth := 0 } stDeq "h" rfl rfl
  have hIP := domain_scope_rule cfg7 filt0 envIP
    { url := "http://1.2.3.4/x", depth := 0 } stDeq "h" rfl rfl
  have hrej : domainReject cfg7 env7 "http://other/x" = true := by decide
  exact ⟨h.1 "other" rfl, (h.2.2.1 hrej).1, (h.2.2.1 hrej).2.1,
    (h.2.2.1 hrej).2.2.1, hIP.2.1 rfl⟩

/-- Claim C7, counterexample. A dequeued URL with the IP-literal host
`1.2.3.4` under allowed domain `h`: the host neither equals `h` nor ends in
`".h"`, yet `Url::domain()` is `None` for an IP host, so engine.rs:270 skips
the scope check — the worker fetches the URL, records its result, counts it
as crawled, and `external_links` stays 0, falsifying the claimed iff over
hosts and the out-of-scope consequences. -/
theorem domain_scope_counterexample :
    cfg7.allowed_domain = some "h" ∧
    ¬ ("1.2.3.4" = "h" ∨ strEndsWith "1.2.3.4" ("." ++ "h") = true) ∧
    postIP.stats.external_links = 0 ∧
    postIP.results.map PageResult.url = ["http://1.2.3.4/x"] ∧
    postIP.stats.pages_crawled = 1 := by
  refine ⟨rfl, ?_, ?_, ?_, ?_⟩ <;> decide
